import Mathlib

/-!
Verification of the GMP ingest/classify/render pipeline of `scripts/update_gmp.js`
(the revision whose line numbers the specification cites).

The JavaScript is shallowly embedded:

* Instants (`Date` values and "now") live on the local civil timeline, measured
  in integer milliseconds since 1970-01-01T00:00 local.  `new Date(y, m, d)`
  is modelled by `jsMakeDate`, which implements ECMAScript `MakeDay` (month
  overflow via floor-division, the 0..99 → 1900+y constructor rule) over the
  proleptic Gregorian calendar.
* The classifier rebuilds `start`/`end` at 00:00:00 / 23:59:59 of their civil
  day via `getFullYear/getMonth/getDate`; on the local timeline that is exactly
  flooring to the enclosing day boundary, modelled by `dayStart`.
* "Now" is passed explicitly as its civil components plus milliseconds within
  the day (`Now`); the script reads the host clock, which is exactly such an
  instant.  This makes every classification function deterministic.
* Regex matches are hand-compiled to anchored scanners over `List Char`; the
  anchored patterns used by the script (`^\d{1,2}...$` etc.) match maximal
  digit/letter runs, so greedy matching coincides with run-based scanning.
* JavaScript numbers extracted from GMP text are modelled as exact rationals;
  the cleaned strings the script feeds to `Number` contain only digits, signs
  and a decimal point, so no exponents or non-finite spellings arise.
* `localeCompare` is modelled as the code-point linear order on `String`
  (a negative/zero/positive three-way comparison); `Array.prototype.sort`,
  which ECMAScript requires to be stable, is modelled by the stable
  `List.insertionSort` on the comparator's `≤ 0` relation.
-/

namespace LiveGmp

/-! ### Civil-calendar arithmetic (ECMAScript `MakeDay`, local timeline) -/

/-- Gregorian leap-year predicate. -/
def isLeap (y : Int) : Bool := y % 4 = 0 && (y % 100 != 0 || y % 400 = 0)

/-- Number of leap years in `(0, y]`, extended to all integers by floor division. -/
def leapsThrough (y : Int) : Int := y.fdiv 4 - y.fdiv 100 + y.fdiv 400

/-- Days from 1970-01-01 to January 1 of year `y` (negative for earlier years). -/
def daysToYear (y : Int) : Int :=
  365 * (y - 1970) + (leapsThrough (y - 1) - leapsThrough 1969)

/-- Days in year `y` before month `m` (0-based month, `0 ≤ m ≤ 11`). -/
def monthOffset (y : Int) (m : Int) : Int :=
  ([0, 31, 59, 90, 120, 151, 181, 212, 243, 273, 304, 334].getD m.toNat 0 : Int)
    + (if 2 ≤ m ∧ isLeap y then 1 else 0)

/-- Days from 1970-01-01 to civil `(y, m, d)` with `m` 0-based; months outside
`0..11` overflow into adjacent years and `d` is unconstrained, exactly as in
ECMAScript `MakeDay`. -/
def daysFromCivil (y m d : Int) : Int :=
  let y2 := y + m.fdiv 12
  let m2 := m.emod 12
  daysToYear y2 + monthOffset y2 m2 + (d - 1)

def msPerDay : Int := 86400000

/-- Model of `new Date(y, m, d)` (midnight local), including the ECMAScript
rule mapping constructor years `0..99` to `1900 + y`. -/
def jsMakeDate (y m d : Int) : Int :=
  let y2 := if 0 ≤ y ∧ y ≤ 99 then y + 1900 else y
  msPerDay * daysFromCivil y2 m d

/-- Midnight (00:00:00.000) of the civil day containing instant `t`; this is
what `new Date(t.getFullYear(), t.getMonth(), t.getDate(), 0, 0, 0)` denotes. -/
def dayStart (t : Int) : Int := msPerDay * t.fdiv msPerDay

/-- The current instant, as its local civil components: what `new Date()`
reports through `getFullYear` / `getMonth` / `getDate`, plus the milliseconds
elapsed within that day. -/
structure Now where
  year : Int
  month : Int
  day : Int
  msInDay : Int
deriving DecidableEq, Repr

/-- Millisecond value (`Date.now()`) of the instant. -/
def Now.toMs (n : Now) : Int :=
  msPerDay * daysFromCivil n.year n.month n.day + n.msInDay

/-! ### Small string utilities shared by the embedded functions -/

def isWS (c : Char) : Bool := c.isWhitespace

/-- JS `String.prototype.trim` (whitespace stripped from both ends), written
as a structurally recursive list computation so that it kernel-reduces. -/
def jsTrim (s : String) : String :=
  String.mk (((s.toList.dropWhile isWS).reverse.dropWhile isWS).reverse)

/-- JS `String.prototype.toLowerCase` (ASCII case mapping). -/
def jsLower (s : String) : String := String.mk (s.toList.map Char.toLower)

/-- JS `String.prototype.split` with a single-character separator:
`"".split(sep)` is `[""]`, adjacent separators produce empty fields. -/
def splitChar (sep : Char) : List Char → List (List Char)
  | [] => [[]]
  | c :: t =>
    let r := splitChar sep t
    if c = sep then [] :: r
    else
      match r with
      | h :: rest => (c :: h) :: rest
      | [] => [[c]]

/-- JS `Array.prototype.join` with a single-character separator. -/
def joinWith (sep : Char) : List (List Char) → List Char
  | [] => []
  | [h] => h
  | h :: t => h ++ sep :: joinWith sep t

/-- Does `pre` occur at the head of `l`? -/
def listPrefix : List Char → List Char → Bool
  | [], _ => true
  | _ :: _, [] => false
  | a :: as, b :: bs => a == b && listPrefix as bs

/-- Does `needle` occur somewhere inside `hay`?  (JS `String.prototype.includes`.) -/
def hasSub (hay needle : List Char) : Bool :=
  match hay with
  | [] => needle.isEmpty
  | _ :: t => listPrefix needle hay || hasSub t needle

/-- `hay.includes(needle)` on strings. -/
def containsSub (hay needle : String) : Bool := hasSub hay.toList needle.toList

/-- Strict lexicographic (code-point) order on character lists; the total
order underlying the model of `localeCompare`. -/
def lexLt : List Char → List Char → Bool
  | [], [] => false
  | [], _ :: _ => true
  | _ :: _, [] => false
  | a :: as, b :: bs => if a < b then true else if b < a then false else lexLt as bs

/-! ### `normalizeStatus` and the status enumeration -/

/-- The three lifecycle statuses; the script represents them as the strings
`"upcoming"`, `"active"` and `"closed"`. -/
inductive Status
  | upcoming
  | active
  | closed
deriving DecidableEq, Repr

/-- `normalizeStatus(raw)`: the empty result string is modelled as `none`.
```js
if (!raw) return '';
const s = String(raw).trim().toLowerCase();
if (s.includes('upcom')) return 'upcoming';
if (s.includes('clos') || s.includes('list')) return 'closed';
if (s.includes('active') || s.includes('open')) return 'active';
return '';
``` -/
def normalizeStatus (raw : String) : Option Status :=
  if raw = "" then none
  else
    let s := jsLower (jsTrim raw)
    if containsSub s "upcom" then some .upcoming
    else if containsSub s "clos" || containsSub s "list" then some .closed
    else if containsSub s "active" || containsSub s "open" then some .active
    else none

/-! ### `parseGmpNumber` -/

/-- Characters the two `replace` passes of `parseGmpNumber` retain: the first
pass deletes `,`, `₹` and whitespace, the second everything outside
`[\d.+-]`; the composition keeps exactly digits, `.`, `+`, `-`. -/
def keepNumChar (c : Char) : Bool := c.isDigit || c == '.' || c == '-' || c == '+'

/-- The cleaned string `parseGmpNumber` feeds to `Number` (both surrounding
`trim()` calls are no-ops on a string with no whitespace left). -/
def cleanGmp (s : String) : String := String.mk (s.toList.filter keepNumChar)

/-- Numeric value of a digit run. -/
def digitsToNat (l : List Char) : Nat := l.foldl (fun a c => 10 * a + (c.toNat - 48)) 0

/-- Apply an optional leading minus sign to a natural number. -/
def applySign (neg : Bool) (n : Nat) : Int := if neg then -(n : Int) else (n : Int)

/-- JS `Number(s)` after an optional leading sign has been stripped: the
ECMAScript numeric-literal grammar restricted to the alphabet
`{digits, '.', '+', '-'}` that cleaned GMP strings live in (no exponents,
no `Infinity`, no hex).  Anything else is `NaN`, i.e. `none`.  A literal
`D₁.D₂` denotes the exact decimal `sign * (D₁D₂ / 10^|D₂|)`, built with
`mkRat` so the value is a bona fide rational. -/
def jsNumCore (neg : Bool) (l : List Char) : Option ℚ :=
  let intPart := l.takeWhile Char.isDigit
  let rest := l.dropWhile Char.isDigit
  if rest = [] then
    if intPart = [] then none else some (mkRat (applySign neg (digitsToNat intPart)) 1)
  else if rest.head? = some '.' then
    let frac := rest.tail
    if frac.all Char.isDigit ∧ (intPart ≠ [] ∨ frac ≠ []) then
      some (mkRat (applySign neg (digitsToNat (intPart ++ frac))) (10 ^ frac.length))
    else none
  else none

/-- JS `Number` on a cleaned GMP string. -/
def jsNumOfClean (s : String) : Option ℚ :=
  match s.toList with
  | '-' :: t => jsNumCore true t
  | '+' :: t => jsNumCore false t
  | l => jsNumCore false l

/-- `parseGmpNumber(raw)`; `none` stands for the `NaN` sentinel (also returned
for a `null`/`undefined` argument, modelled as `none` input).
```js
const s = String(raw).trim();
const normalized = s.replace(/[,₹\s]/g,'').replace(/[^\d\.\-\+]/g,'').trim();
if (normalized === '' || normalized === '-' || normalized === '+') return NaN;
const n = Number(normalized);
return Number.isFinite(n) ? n : NaN;
``` -/
def parseGmpNumber (raw : Option String) : Option ℚ :=
  match raw with
  | none => none
  | some r =>
    let normalized := cleanGmp (jsTrim r)
    if normalized = "" ∨ normalized = "-" ∨ normalized = "+" then none
    else jsNumOfClean normalized

/-! ### `tryParseDayMonthYear` -/

/-- The `MONTHS` table: three-letter month names to 0-based month index. -/
def monthIdx (s : String) : Option Int :=
  if s = "jan" then some 0 else if s = "feb" then some 1
  else if s = "mar" then some 2 else if s = "apr" then some 3
  else if s = "may" then some 4 else if s = "jun" then some 5
  else if s = "jul" then some 6 else if s = "aug" then some 7
  else if s = "sep" then some 8 else if s = "oct" then some 9
  else if s = "nov" then some 10 else if s = "dec" then some 11
  else none

def isSep (c : Char) : Bool := c == '-' || c == '/'

def isAsciiAlpha (c : Char) : Bool := ('a' ≤ c && c ≤ 'z') || ('A' ≤ c && c ≤ 'Z')

/-- Maximal digit run and remainder. -/
def digitRun (l : List Char) : List Char × List Char :=
  (l.takeWhile Char.isDigit, l.dropWhile Char.isDigit)

/-- Anchored match of `^(\d{1,2})[-\/](\d{1,2})(?:[-\/](\d{2,4}))?$`,
returning the numeric captures. -/
def matchDashNumeric (l : List Char) : Option (Nat × Nat × Option Nat) :=
  let (d1, r1) := digitRun l
  if d1.length = 0 ∨ 2 < d1.length then none else
  match r1 with
  | [] => none
  | c :: r2 =>
    if isSep c then
      let (d2, r3) := digitRun r2
      if d2.length = 0 ∨ 2 < d2.length then none else
      match r3 with
      | [] => some (digitsToNat d1, digitsToNat d2, none)
      | c2 :: r4 =>
        if isSep c2 then
          let (d3, r5) := digitRun r4
          if 2 ≤ d3.length ∧ d3.length ≤ 4 ∧ r5 = [] then
            some (digitsToNat d1, digitsToNat d2, some (digitsToNat d3))
          else none
        else none
    else none

/-- Anchored match of `^(\d{1,2})\s+([A-Za-z]{3,})\s*(\d{2,4})?$`,
returning day, month word and optional year. -/
def matchDayName (l : List Char) : Option (Nat × String × Option Nat) :=
  let (d1, r1) := digitRun l
  if d1.length = 0 ∨ 2 < d1.length then none else
  let ws1 := r1.takeWhile isWS
  let r2 := r1.dropWhile isWS
  if ws1 = [] then none else
  let al := r2.takeWhile isAsciiAlpha
  let r3 := r2.dropWhile isAsciiAlpha
  if al.length < 3 then none else
  let r4 := r3.dropWhile isWS
  match r4 with
  | [] => some (digitsToNat d1, String.mk al, none)
  | _ =>
    let (d3, r5) := digitRun r4
    if 2 ≤ d3.length ∧ d3.length ≤ 4 ∧ r5 = [] then
      some (digitsToNat d1, String.mk al, some (digitsToNat d3))
    else none

/-- Anchored match of `^(\d{1,2})$`. -/
def matchDayOnly (l : List Char) : Option Nat :=
  if l ≠ [] ∧ l.length ≤ 2 ∧ l.all Char.isDigit then some (digitsToNat l) else none

/-- `tryParseDayMonthYear(token, defaultYear)`; `now` supplies
`new Date().getFullYear()/getMonth()` in the bare-day branch.
```js
token = token.trim().replace(/\./g,'');
const dashMatch = token.match(/^(\d{1,2})[-\/](\d{1,2})(?:[-\/](\d{2,4}))?$/);
if (dashMatch) { ... return new Date(y, m, d); }
const nameMatch = token.match(/^(\d{1,2})\s+([A-Za-z]{3,})\s*(\d{2,4})?$/);
if (nameMatch) { ... if (m !== undefined) return new Date(y, m, d); }
const dayOnly = token.match(/^(\d{1,2})$/);
if (dayOnly) { const now = new Date(); return new Date(now.getFullYear(), now.getMonth(), d); }
return null;
``` -/
def tryParseDayMonthYear (now : Now) (token : String) (defaultYear : Int) : Option Int :=
  let t := (jsTrim token).toList.filter (fun c => c ≠ '.')
  let dayOnlyBranch : Option Int :=
    match matchDayOnly t with
    | some d => some (jsMakeDate now.year now.month (d : Int))
    | none => none
  match matchDashNumeric t with
  | some (d, mm, y?) =>
    let y : Int := match y? with | some yv => (yv : Int) | none => defaultYear
    some (jsMakeDate y ((mm : Int) - 1) (d : Int))
  | none =>
    match matchDayName t with
    | some (d, mname, y?) =>
      match monthIdx (jsLower (String.mk (mname.toList.take 3))) with
      | some m =>
        let y : Int := match y? with | some yv => (yv : Int) | none => defaultYear
        some (jsMakeDate y m (d : Int))
      | none => dayOnlyBranch
    | none => dayOnlyBranch

/-! ### `parseDateRange` -/

/-- En dash and em dash become `'-'` (the global first `replace`). -/
def mapDashes (c : Char) : Char :=
  if c = Char.ofNat 0x2013 ∨ c = Char.ofNat 0x2014 then '-' else c

/-- First (leftmost) match of `/\s+to\s+/i` replaced by `'-'`; `none` when the
pattern does not occur. -/
def replaceTo : List Char → Option (List Char)
  | [] => none
  | c :: t =>
    if isWS c then
      match t.dropWhile isWS with
      | a :: b :: r2 =>
        if (a == 't' || a == 'T') && (b == 'o' || b == 'O') &&
            (match r2 with | x :: _ => isWS x | [] => false) then
          some ('-' :: r2.dropWhile isWS)
        else (replaceTo t).map (fun res => c :: res)
      | _ => (replaceTo t).map (fun res => c :: res)
    else (replaceTo t).map (fun res => c :: res)

/-- First (leftmost) match of `/\s*-\s*/` replaced by `'-'`; `none` when the
string has no `'-'`. -/
def replaceDashWS : List Char → Option (List Char)
  | [] => none
  | c :: t =>
    if c = '-' then some ('-' :: t.dropWhile isWS)
    else if isWS c then
      match t.dropWhile isWS with
      | '-' :: r2 => some ('-' :: r2.dropWhile isWS)
      | _ => (replaceDashWS t).map (fun res => c :: res)
    else (replaceDashWS t).map (fun res => c :: res)

/-- The separator normalisation chain
`raw.replace(/–|—|–/g,'-').replace(/\s+to\s+/i,'-').replace(/\s*-\s*/,'-')`. -/
def normSeparators (s : String) : String :=
  let l1 := s.toList.map mapDashes
  let l2 := match replaceTo l1 with | some r => r | none => l1
  let l3 := match replaceDashWS l2 with | some r => r | none => l2
  String.mk l3

/-- `/tba|to be announced|not announced|n\/a/i.test(raw)`. -/
def hasUnknownMarker (s : String) : Bool :=
  let low := jsLower s
  containsSub low "tba" || containsSub low "to be announced" ||
    containsSub low "not announced" || containsSub low "n/a"

/-- `/^\s*\d{4}\s*$/.test(p)` together with `Number(p.trim())`. -/
def yearToken (s : String) : Option Int :=
  let l := s.toList.dropWhile isWS
  let (ds, r) := digitRun l
  if ds.length = 4 ∧ r.all isWS then some (digitsToNat ds : Int) else none

/-- `parseDateRange(text)` returning `(start, end)`; `now` supplies the
current year/month the script reads from fresh `new Date()` values.

The script computes `year` as `(commaParts[1] && /^\s*\d{4}\s*$/.test(...)) ?
Number(...) : currentYear` and then `defaultYear = year || currentYear`;
when no comma-year is present `year` is already `currentYear`, so the `||`
fallback is observable only for an explicit `0000` token.  The model keeps
the comma-year as an `Option` and resolves both steps at once.
```js
if (!text) return { start: null, end: null };
const raw = String(text).trim();
if (/tba|to be announced|not announced|n\/a/i.test(raw)) return { start:null, end:null };
const norm = ... ;  // separator normalisation, see normSeparators
const commaParts = norm.split(',');
let main = commaParts[0].trim();
let year = ...;
if (main.includes('-')) {
  const parts = main.split('-').map(p => p.trim());
  const first = parts[0];
  const second = parts.slice(1).join('-');
  const defaultYear = year || now.getFullYear();
  const start = tryParseDayMonthYear(first, defaultYear);
  const end = tryParseDayMonthYear(second, defaultYear);
  return { start: start, end: end || start };
} else {
  const single = tryParseDayMonthYear(main, year || now.getFullYear());
  return { start: single, end: single };
}
``` -/
def parseDateRange (now : Now) (text : String) : Option Int × Option Int :=
  if text = "" then (none, none)
  else
    let raw := jsTrim text
    if hasUnknownMarker raw then (none, none)
    else
      let norm := normSeparators raw
      let commaParts := (splitChar ',' norm.toList).map String.mk
      let main := jsTrim (commaParts.headD "")
      let commaYear : Option Int :=
        match commaParts.get? 1 with
        | some p2 => yearToken p2
        | none => none
      let defaultYear : Int :=
        match commaYear with
        | some y => if y = 0 then now.year else y
        | none => now.year
      if main.toList.contains '-' then
        let parts := ((splitChar '-' main.toList).map String.mk).map jsTrim
        let first := parts.headD ""
        let second := String.mk (joinWith '-' ((parts.drop 1).map String.toList))
        let start := tryParseDayMonthYear now first defaultYear
        let stop := tryParseDayMonthYear now second defaultYear
        (start, match stop with | some e => some e | none => start)
      else
        let single := tryParseDayMonthYear now main defaultYear
        (single, single)

/-! ### `computeStatusFromDateText` -/

/-- `computeStatusFromDateText(dateText)`.
```js
const { start, end } = parseDateRange(dateText);
const now = new Date();
if (!start && !end) return 'upcoming';
if (start && end) {
  const s = new Date(start.getFullYear(), start.getMonth(), start.getDate(), 0,0,0);
  const e = new Date(end.getFullYear(), end.getMonth(), end.getDate(), 23,59,59);
  if (now < s) return 'upcoming';
  if (now >= s && now <= e) return 'active';
  if (now > e) return 'closed';
}
return 'upcoming';
```
`s` is midnight of `start`'s civil day (`dayStart start`) and `e` is
23:59:59.000 of `end`'s day (`dayStart end + msPerDay - 1000`). -/
def computeStatusFromDateText (now : Now) (dateText : String) : Status :=
  match parseDateRange now dateText with
  | (some s, some e) =>
    let sMid := dayStart s
    let eEnd := dayStart e + (msPerDay - 1000)
    let n := now.toMs
    if n < sMid then .upcoming
    else if sMid ≤ n ∧ n ≤ eEnd then .active
    else if eEnd < n then .closed
    else .upcoming
  | (none, none) => .upcoming
  | _ => .upcoming

/-! ### Row normalisation, grouping, sorting, capping (the `main` pipeline) -/

/-- An input record after header aliasing: the canonical values the script
extracts via its `??`-chains (`r.IPO ?? r.Ipo ?? ...` etc.), with absent
fields already collapsed to `''`. -/
structure InputRow where
  IPO : String
  GMP : String
  date : String
  statusText : String
deriving DecidableEq, Repr

/-- The status stored on a normalised row:
`normalizeStatus(r.Status) || computeStatusFromDateText(String(dateRaw||'').trim()) || 'upcoming'`
(the computed status is never empty, so the final fallback is dead). -/
def rowStatus (now : Now) (r : InputRow) : Status :=
  match normalizeStatus r.statusText with
  | some st => st
  | none => computeStatusFromDateText now (jsTrim r.date)

/-- A normalised row: the fields the grouping/sorting/capping stages read. -/
structure NormRow where
  IPO : String
  GMP_num : Option ℚ
  status : Status
deriving DecidableEq, Repr

/-- One entry of `rowsRaw.map(...)`: keeps the name, the extracted numeric GMP
(`isNaN(gmpNum) ? null : gmpNum`) and the derived status. -/
def normalizeRow (now : Now) (r : InputRow) : NormRow :=
  { IPO := r.IPO, GMP_num := parseGmpNumber (some r.GMP), status := rowStatus now r }

/-- The grouping loop: a row joins the group of its status unless
`!item.IPO || !String(item.IPO).trim()` (i.e. unless its name trims to
nothing); input order is preserved. -/
def groupOf (rows : List NormRow) (st : Status) : List NormRow :=
  rows.filter (fun r => !(jsTrim r.IPO == "") && r.status == st)

/-- Sign model of `String.prototype.localeCompare`: a three-way comparison
realising a total order on strings (the code-point order; only the sign is
ever consumed). -/
def lcmpQ (a b : String) : ℚ :=
  if lexLt a.toList b.toList then -1 else if lexLt b.toList a.toList then 1 else 0

/-- The sort comparator:
```js
const sortFn = (a,b) => {
  if (a.GMP_num === null && b.GMP_num === null) return (a.IPO||'').localeCompare(b.IPO||'');
  if (a.GMP_num === null) return 1;
  if (b.GMP_num === null) return -1;
  return b.GMP_num - a.GMP_num;
};
``` -/
def sortFn (a b : NormRow) : ℚ :=
  match a.GMP_num, b.GMP_num with
  | none, none => lcmpQ a.IPO b.IPO
  | none, some _ => 1
  | some _, none => -1
  | some x, some y => y - x

/-- Executable form of the comparator's "may come before" relation, avoiding
rational subtraction so that sorting kernel-reduces; `sortFn_nonpos_iff`
proves it is exactly `sortFn a b ≤ 0`. -/
def rowLeB (a b : NormRow) : Bool :=
  match a.GMP_num, b.GMP_num with
  | none, none => !lexLt b.IPO.toList a.IPO.toList
  | none, some _ => false
  | some _, none => true
  | some x, some y => y ≤ x

/-- The non-strict order induced by the comparator (`a` may come before `b`). -/
def rowLe (a b : NormRow) : Prop := rowLeB a b = true

instance : DecidableRel rowLe := fun a b => inferInstanceAs (Decidable (rowLeB a b = true))

/-- `Array.prototype.sort(sortFn)`: ECMAScript requires a stable sort, and for
a consistent comparator every stable sort agrees with stable insertion sort. -/
def jsSort (l : List NormRow) : List NormRow := List.insertionSort rowLe l

/-- `MAX_PER_GROUP = 10`. -/
def MAX_PER_GROUP : Nat := 10

/-- `Array.prototype.slice(start, stop)` for non-negative indices. -/
def jsSlice (start stop : Nat) (l : List α) : List α := (l.drop start).take (stop - start)

/-- `groups[k].sort(sortFn)` followed by `groups[k].slice(0, MAX_PER_GROUP)`. -/
def processGroup (l : List NormRow) : List NormRow :=
  jsSlice 0 MAX_PER_GROUP (jsSort l)

/-- The full per-group pipeline: normalise, group by status, sort, cap. -/
def pipelineGroup (now : Now) (rows : List InputRow) (st : Status) : List NormRow :=
  processGroup (groupOf (rows.map (normalizeRow now)) st)

/-- The order actually realised inside each sorted group: numeric GMP
descending, all numeric rows before all non-numeric rows, and non-numeric
pairs ordered by name. -/
def rowOrdered (a b : NormRow) : Prop :=
  match a.GMP_num, b.GMP_num with
  | some x, some y => y ≤ x
  | some _, none => True
  | none, some _ => False
  | none, none => lexLt b.IPO.toList a.IPO.toList = false

/-- Eleven distinct rows, used to exercise the group cap of ten. -/
def elevenRows : List NormRow :=
  [⟨"r01", none, .active⟩, ⟨"r02", none, .active⟩, ⟨"r03", none, .active⟩,
   ⟨"r04", none, .active⟩, ⟨"r05", none, .active⟩, ⟨"r06", none, .active⟩,
   ⟨"r07", none, .active⟩, ⟨"r08", none, .active⟩, ⟨"r09", none, .active⟩,
   ⟨"r10", none, .active⟩, ⟨"r11", none, .active⟩]

/-- A one-row input batch with a well-formed name. -/
def alphaRow : InputRow := ⟨"Alpha", "5", "14-18 Nov", ""⟩

/-! ## Proofs -/

/-! ### The comparator induces a total preorder -/

theorem lexLt_nil_false (l : List Char) : lexLt l [] = false := by
  cases l <;> rfl

theorem lexLt_asymm : ∀ (a b : List Char), lexLt a b = true → lexLt b a = false
  | [], [], h => by simp [lexLt] at h
  | [], _ :: _, _ => lexLt_nil_false _
  | _ :: _, [], h => by simp [lexLt] at h
  | x :: xs, y :: ys, h => by
    simp only [lexLt] at h ⊢
    by_cases hxy : x < y
    · rw [if_neg (lt_asymm hxy), if_pos hxy]
    · rw [if_neg hxy] at h
      by_cases hyx : y < x
      · rw [if_pos hyx] at h
        exact absurd h (by simp)
      · rw [if_neg hyx] at h
        rw [if_neg hyx, if_neg hxy]
        exact lexLt_asymm xs ys h

theorem lexLt_neg_trans : ∀ (a b c : List Char),
    lexLt b a = false → lexLt c b = false → lexLt c a = false
  | [], _, c, _, _ => lexLt_nil_false c
  | _ :: _, [], _, h1, _ => by simp [lexLt] at h1
  | _ :: _, _ :: _, [], _, h2 => by simp [lexLt] at h2
  | x :: xs, y :: ys, z :: zs, h1, h2 => by
    simp only [lexLt] at h1 h2 ⊢
    by_cases hyx : y < x
    · simp [hyx] at h1
    · by_cases hzy : z < y
      · simp [hzy] at h2
      · rw [if_neg hyx] at h1
        rw [if_neg hzy] at h2
        have hzx : ¬ z < x := fun h => hzy (lt_of_lt_of_le h (le_of_not_lt hyx))
        rw [if_neg hzx]
        by_cases hxz : x < z
        · rw [if_pos hxz]
        · rw [if_neg hxz]
          have hxy : ¬ x < y := fun h => hzy (lt_of_le_of_lt (le_of_not_lt hxz) h)
          have hyz : ¬ y < z := fun h => hxz (lt_of_le_of_lt (le_of_not_lt hyx) h)
          rw [if_neg hxy] at h1
          rw [if_neg hyz] at h2
          exact lexLt_neg_trans xs ys zs h1 h2

theorem lcmpQ_nonpos {a b : String} : lcmpQ a b ≤ 0 ↔ lexLt b.toList a.toList = false := by
  unfold lcmpQ
  split_ifs with h1 h2
  · exact iff_of_true (by norm_num) (lexLt_asymm _ _ h1)
  · exact iff_of_false (by norm_num) (fun hf => by rw [h2] at hf; exact Bool.noConfusion hf)
  · exact iff_of_true le_rfl (Bool.eq_false_iff.mpr h2)

/-- The comparator agrees with its executable form: `sortFn a b ≤ 0` exactly
when `rowLeB a b` is `true` (that is, exactly when `rowLe a b`). -/
theorem sortFn_nonpos_iff (a b : NormRow) : sortFn a b ≤ 0 ↔ rowLe a b := by
  obtain ⟨na, ga, sa⟩ := a
  obtain ⟨nb, gb, sb⟩ := b
  rcases ga with _ | x <;> rcases gb with _ | y <;>
    simp only [rowLe, sortFn, rowLeB]
  · rw [lcmpQ_nonpos]
    simp
  · norm_num
  · norm_num
  · rw [sub_nonpos]
    simp

instance : IsTotal NormRow rowLe := by
  constructor
  intro a b
  obtain ⟨na, ga, sa⟩ := a
  obtain ⟨nb, gb, sb⟩ := b
  rcases ga with _ | x <;> rcases gb with _ | y <;> simp only [rowLe, rowLeB]
  · rcases hb : lexLt na.toList nb.toList with _ | _
    · right
      rfl
    · left
      rw [lexLt_asymm _ _ hb]
      rfl
  · simp
  · simp
  · rcases le_total y x with h | h
    · left; exact decide_eq_true h
    · right; exact decide_eq_true h

instance : IsTrans NormRow rowLe := by
  constructor
  intro a b c hab hbc
  obtain ⟨na, ga, sa⟩ := a
  obtain ⟨nb, gb, sb⟩ := b
  obtain ⟨nc, gc, sc⟩ := c
  rcases ga with _ | x <;> rcases gb with _ | y <;> rcases gc with _ | z <;>
    simp only [rowLe, rowLeB] at hab hbc ⊢
  · simp only [Bool.not_eq_true'] at hab hbc ⊢
    exact lexLt_neg_trans _ _ _ hab hbc
  · exact Bool.noConfusion hbc
  · exact Bool.noConfusion hab
  · exact Bool.noConfusion hab
  · exact Bool.noConfusion hbc
  · exact decide_eq_true (le_trans (of_decide_eq_true hbc) (of_decide_eq_true hab))

theorem rowLe_imp_rowOrdered {a b : NormRow} (h : rowLe a b) : rowOrdered a b := by
  obtain ⟨na, ga, sa⟩ := a
  obtain ⟨nb, gb, sb⟩ := b
  rcases ga with _ | x <;> rcases gb with _ | y <;>
    simp only [rowLe, rowLeB, rowOrdered] at h ⊢
  · simpa using h
  · exact Bool.noConfusion h
  · exact of_decide_eq_true h

/-! ### Digit-free cleaned strings never produce a number -/

theorem jsNumCore_no_digit (neg : Bool) (l : List Char)
    (h : ∀ c ∈ l, c.isDigit = false) : jsNumCore neg l = none := by
  unfold jsNumCore
  cases l with
  | nil => simp
  | cons c t =>
    have hc : ¬ c.isDigit = true := by simp [h c (List.mem_cons_self c t)]
    rw [List.takeWhile_cons_of_neg hc, List.dropWhile_cons_of_neg hc]
    simp only [reduceCtorEq, if_false, List.head?_cons, List.tail_cons]
    by_cases hdot : c = '.'
    · subst hdot
      simp only [Option.some.injEq, if_pos rfl]
      cases t with
      | nil => simp
      | cons d t2 =>
        have hd : d.isDigit = false := h d (List.mem_cons_of_mem _ (List.mem_cons_self d t2))
        simp [List.all_cons, hd]
    · simp [hdot]

theorem jsNumOfClean_no_digit (s : String)
    (h : (s.toList.all fun c => !c.isDigit) = true) : jsNumOfClean s = none := by
  have h' : ∀ c ∈ s.toList, c.isDigit = false := by
    intro c hc
    simpa using List.all_eq_true.mp h c hc
  unfold jsNumOfClean
  split
  · next t heq =>
    exact jsNumCore_no_digit _ t fun c hc => h' c (heq ▸ List.mem_cons_of_mem _ hc)
  · next t heq =>
    exact jsNumCore_no_digit _ t fun c hc => h' c (heq ▸ List.mem_cons_of_mem _ hc)
  · next => exact jsNumCore_no_digit _ _ h'

/-! ### Claim C1 -/

/-- Claim C1, counterexample.  The claim asserts that for `"14-18 Nov"` the
bare start token `14` inherits the month and year parsed from the end token
`"18 Nov"`.  Parsing at an instant in March 2025 instead yields a start of
14 March 2025 — `tryParseDayMonthYear`'s bare-day branch reads the current
month/year from `new Date()` — which differs from the 14 November 2025 the
claim requires. -/
theorem C1_counterexample :
    parseDateRange ⟨2025, 2, 5, 0⟩ "14-18 Nov"
      = (some (jsMakeDate 2025 2 14), some (jsMakeDate 2025 10 18))
    ∧ jsMakeDate 2025 2 14 ≠ jsMakeDate 2025 10 14 := by
  decide

/-- Claim C1, amended.  For a range `"14-18 Nov"` whose start token is a bare
day, `parseDateRange` keeps the start token's day but uses the current month
and year at parse time for the start date; the end date is parsed from the end
token with the current year as default year.  Start and end therefore share a
month exactly when parsing happens during that month (e.g. during November for
`"14-18 Nov"`, in which case `start.day = 14`, `end.day = 18`, same
month/year). -/
theorem C1_bare_day_start_uses_current_month (now : Now) :
    parseDateRange now "14-18 Nov"
      = (some (jsMakeDate now.year now.month 14), some (jsMakeDate now.year 10 18)) := rfl

/-! ### Claim C2 -/

/-- Claim C2, counterexample.  The claim asserts unconditionally that when
"now" is past the end date's 23:59:59 the classification is `closed`.  For the
inverted window parsed from `"20-10 Nov"` on 15 November 2025 (start = 20 Nov,
since the bare `20` uses the current month; end = 10 Nov), now is after the end
day-end yet the classifier returns `upcoming`, because the `now < start` test
runs first. -/
theorem C2_counterexample :
    parseDateRange ⟨2025, 10, 15, 0⟩ "20-10 Nov"
      = (some (jsMakeDate 2025 10 20), some (jsMakeDate 2025 10 10))
    ∧ dayStart (jsMakeDate 2025 10 10) + (msPerDay - 1000) < Now.toMs ⟨2025, 10, 15, 0⟩
    ∧ computeStatusFromDateText ⟨2025, 10, 15, 0⟩ "20-10 Nov" = Status.upcoming := by
  decide

/-- Claim C2, amended.  For every dateText parsed to a non-null start and end,
classification compares now to the window in this priority order: `upcoming`
when now is before the start day's 00:00:00, otherwise `active` when now is at
most the end day's 23:59:59, otherwise `closed`.  (For windows with
start-day ≤ end-day this is exactly the claim's three exclusive cases; for an
inverted window the `upcoming` test wins.)  The claim's examples hold:
`"14-18 Nov"` in November 2025 classifies `upcoming` on the 10th, `active` on
the 16th and `closed` on the 20th. -/
theorem C2_window_classification :
    (∀ (now : Now) (dt : String) (s e : Int),
        parseDateRange now dt = (some s, some e) →
        computeStatusFromDateText now dt =
          (if now.toMs < dayStart s then Status.upcoming
           else if now.toMs ≤ dayStart e + (msPerDay - 1000) then Status.active
           else Status.closed))
    ∧ computeStatusFromDateText ⟨2025, 10, 10, 0⟩ "14-18 Nov" = Status.upcoming
    ∧ computeStatusFromDateText ⟨2025, 10, 16, 0⟩ "14-18 Nov" = Status.active
    ∧ computeStatusFromDateText ⟨2025, 10, 20, 0⟩ "14-18 Nov" = Status.closed := by
  refine ⟨?_, by decide, by decide, by decide⟩
  intro now dt s e h
  unfold computeStatusFromDateText
  rw [h]
  show (if now.toMs < dayStart s then Status.upcoming
        else if dayStart s ≤ now.toMs ∧ now.toMs ≤ dayStart e + (msPerDay - 1000) then Status.active
        else if dayStart e + (msPerDay - 1000) < now.toMs then Status.closed
        else Status.upcoming) = _
  split_ifs <;> first | rfl | (exfalso; omega)

/-- Witness for C2: instantiating the amended classification rule on
`"14-18 Nov"` at noon-less midnight of 16 November 2025. -/
theorem C2_witness :
    parseDateRange ⟨2025, 10, 16, 0⟩ "14-18 Nov"
      = (some (jsMakeDate 2025 10 14), some (jsMakeDate 2025 10 18))
    ∧ computeStatusFromDateText ⟨2025, 10, 16, 0⟩ "14-18 Nov"
      = (if Now.toMs ⟨2025, 10, 16, 0⟩ < dayStart (jsMakeDate 2025 10 14) then Status.upcoming
         else if Now.toMs ⟨2025, 10, 16, 0⟩ ≤ dayStart (jsMakeDate 2025 10 18) + (msPerDay - 1000)
           then Status.active
         else Status.closed) :=
  ⟨by decide, C2_window_classification.1 _ _ _ _ (by decide)⟩

/-! ### Claim C4 -/

/-- Claim C4: the unknown markers `"TBA"`, `""`, `"to be announced"`,
`"not announced"` and `"N/A"` all parse to `(null, null)` and classify as
`upcoming`, for every current time. -/
theorem C4_unknown_markers_upcoming (now : Now) :
    parseDateRange now "TBA" = (none, none)
    ∧ computeStatusFromDateText now "TBA" = Status.upcoming
    ∧ parseDateRange now "" = (none, none)
    ∧ computeStatusFromDateText now "" = Status.upcoming
    ∧ parseDateRange now "to be announced" = (none, none)
    ∧ computeStatusFromDateText now "to be announced" = Status.upcoming
    ∧ parseDateRange now "not announced" = (none, none)
    ∧ computeStatusFromDateText now "not announced" = Status.upcoming
    ∧ parseDateRange now "N/A" = (none, none)
    ∧ computeStatusFromDateText now "N/A" = Status.upcoming :=
  ⟨rfl, rfl, rfl, rfl, rfl, rfl, rfl, rfl, rfl, rfl⟩

/-! ### Claim C10 -/

/-- Claim C10: a range whose start token fails to parse but whose end token
parses yields the asymmetric `(null, end)` — start is neither collapsed nor
defaulted from end — and any such asymmetric result classifies as `upcoming`
regardless of the current time. -/
theorem C10_asymmetric_range_upcoming :
    (∀ (now : Now) (dt : String) (e : Int),
        parseDateRange now dt = (none, some e) →
        computeStatusFromDateText now dt = Status.upcoming)
    ∧ ∀ now : Now,
        parseDateRange now "??-18 Nov" = (none, some (jsMakeDate now.year 10 18)) := by
  constructor
  · intro now dt e h
    unfold computeStatusFromDateText
    rw [h]
  · intro now
    rfl

/-- Witness for C10: the asymmetric parse of `"??-18 Nov"` in November 2025
classifies as upcoming. -/
theorem C10_witness :
    parseDateRange ⟨2025, 10, 16, 0⟩ "??-18 Nov" = (none, some (jsMakeDate 2025 10 18))
    ∧ computeStatusFromDateText ⟨2025, 10, 16, 0⟩ "??-18 Nov" = Status.upcoming :=
  ⟨by decide, C10_asymmetric_range_upcoming.1 ⟨2025, 10, 16, 0⟩ "??-18 Nov"
    (jsMakeDate 2025 10 18) (by decide)⟩

/-! ### Claim C3 -/

/-- Claim C3: whenever the explicit status field matches a recognized keyword
(`normalizeStatus` returns a status), that status is the row's final status
and the date text is never consulted; in particular `"Listed"` maps to
`closed` and overrides a date window that would classify the row as `active`
(`"14-18 Nov"` on 16 November 2025). -/
theorem C3_explicit_status_overrides :
    (∀ (now : Now) (r : InputRow) (st : Status),
        normalizeStatus r.statusText = some st → rowStatus now r = st)
    ∧ (∀ (now : Now) (dt : String),
        rowStatus now ⟨"X", "", dt, "Listed"⟩ = Status.closed)
    ∧ computeStatusFromDateText ⟨2025, 10, 16, 0⟩ "14-18 Nov" = Status.active
    ∧ rowStatus ⟨2025, 10, 16, 0⟩ ⟨"AlphaBeta", "", "14-18 Nov", "Listed"⟩ = Status.closed := by
  refine ⟨?_, fun now dt => rfl, by decide, rfl⟩
  intro now r st h
  unfold rowStatus
  rw [h]

/-- Witness for C3: the override rule applied to an explicit `"Listed"` status
on a row whose dates would read `active`. -/
theorem C3_witness :
    normalizeStatus "Listed" = some Status.closed
    ∧ rowStatus ⟨2025, 10, 16, 0⟩ ⟨"GammaCorp", "12", "14-18 Nov", "Listed"⟩ = Status.closed :=
  ⟨by decide, C3_explicit_status_overrides.1 ⟨2025, 10, 16, 0⟩
    ⟨"GammaCorp", "12", "14-18 Nov", "Listed"⟩ Status.closed (by decide)⟩

/-! ### Claim C5 -/

/-- Claim C5: classification is total — every dateText yields exactly one of
the three statuses — and any input whose range parses to `(null, null)`
(including arbitrary unparseable text, e.g. `"####"`) yields `upcoming`. -/
theorem C5_classification_total :
    (∀ (now : Now) (dt : String),
        computeStatusFromDateText now dt = Status.upcoming
        ∨ computeStatusFromDateText now dt = Status.active
        ∨ computeStatusFromDateText now dt = Status.closed)
    ∧ (∀ (now : Now) (dt : String),
        parseDateRange now dt = (none, none) →
        computeStatusFromDateText now dt = Status.upcoming)
    ∧ ∀ now : Now, computeStatusFromDateText now "####" = Status.upcoming := by
  refine ⟨?_, ?_, fun now => rfl⟩
  · intro now dt
    cases h : computeStatusFromDateText now dt <;> simp
  · intro now dt h
    unfold computeStatusFromDateText
    rw [h]

/-- Witness for C5: the `(null, null)` fallback on a concrete unparseable
input. -/
theorem C5_witness :
    parseDateRange ⟨2025, 0, 1, 0⟩ "????" = (none, none)
    ∧ computeStatusFromDateText ⟨2025, 0, 1, 0⟩ "????" = Status.upcoming :=
  ⟨by decide, C5_classification_total.2.1 ⟨2025, 0, 1, 0⟩ "????" (by decide)⟩

/-! ### Claim C6 -/

/-- Claim C6, counterexample.  The claim's "if and only if" fails right to
left: the cleaned form of `"1-2"` is `"1-2"` itself, which contains digits,
yet `Number("1-2")` is `NaN`, so the extractor returns the no-value
sentinel. -/
theorem C6_counterexample :
    parseGmpNumber (some "1-2") = none
    ∧ ((cleanGmp (jsTrim "1-2")).toList.any fun c => c.isDigit) = true := by
  decide

/-- Claim C6, amended.  The extractor never throws (it is a total function),
and returns a number only if the cleaned string contains at least one digit —
a digit-free cleaned string always yields the sentinel — but not conversely:
digit-containing cleaned strings that are not well-formed numerals (such as
`"1-2"`) also yield the sentinel.  The claim's examples hold: `"₹1,234"` gives
`1234`; `"—"`, `""` and `"+"` give the sentinel. -/
theorem C6_digit_necessary :
    (∀ s : String,
        ((cleanGmp (jsTrim s)).toList.all fun c => !c.isDigit) = true →
        parseGmpNumber (some s) = none)
    ∧ parseGmpNumber (some "₹1,234") = some 1234
    ∧ parseGmpNumber (some "—") = none
    ∧ parseGmpNumber (some "") = none
    ∧ parseGmpNumber (some "+") = none
    ∧ parseGmpNumber none = none := by
  refine ⟨?_, by decide, by decide, by decide, by decide, rfl⟩
  intro s h
  show (if cleanGmp (jsTrim s) = "" ∨ cleanGmp (jsTrim s) = "-" ∨ cleanGmp (jsTrim s) = "+"
        then none else jsNumOfClean (cleanGmp (jsTrim s))) = none
  split_ifs with hg
  · rfl
  · exact jsNumOfClean_no_digit _ h

/-- Witness for C6: the digit-necessity direction applied to the em-dash
placeholder. -/
theorem C6_witness :
    ((cleanGmp (jsTrim "—")).toList.all fun c => !c.isDigit) = true
    ∧ parseGmpNumber (some "—") = none :=
  ⟨by decide, C6_digit_necessary.1 "—" (by decide)⟩

/-! ### Claim C7 -/

/-- Claim C7, counterexample.  The claim asserts that all ties, not only those
between two rows without numeric values, break by name.  Two rows with the
same numeric GMP compare equal under `sortFn` (it returns `b - a = 0`), so the
stable sort keeps their input order: `[B, A]` stays `[B, A]` even though
`"A" < "B"`. -/
theorem C7_counterexample :
    jsSort [⟨"B", some 5, Status.active⟩, ⟨"A", some 5, Status.active⟩]
      = [⟨"B", some 5, Status.active⟩, ⟨"A", some 5, Status.active⟩]
    ∧ lexLt "A".toList "B".toList = true := by
  decide

/-- Claim C7, amended.  Each group is sorted by numeric GMP descending; every
row without a numeric value comes after all rows with one; ties between two
rows both lacking a numeric value break by name; ties between equal numeric
values keep their input order (stable sort) rather than re-ordering by name.
The claim's example holds: values `[5, null, 10, null]` with names
`[B, A, C, D]` sort to `C(10), B(5), A(null), D(null)`. -/
theorem C7_sort_order :
    jsSort [⟨"B", some 5, Status.active⟩, ⟨"A", none, Status.active⟩,
            ⟨"C", some 10, Status.active⟩, ⟨"D", none, Status.active⟩]
      = [⟨"C", some 10, Status.active⟩, ⟨"B", some 5, Status.active⟩,
         ⟨"A", none, Status.active⟩, ⟨"D", none, Status.active⟩]
    ∧ ∀ l : List NormRow, (jsSort l).Perm l ∧ (jsSort l).Pairwise rowOrdered := by
  refine ⟨by decide, fun l => ⟨List.perm_insertionSort rowLe l, ?_⟩⟩
  exact (List.sorted_insertionSort rowLe l).imp fun h => rowLe_imp_rowOrdered h

/-! ### Claim C8 -/

/-- Claim C8: a group with more than `MAX_PER_GROUP` (10) rows is cut to
exactly the first ten rows of its sorted order; the slice is the whole output
for the group, so every row beyond the cap is absent from it, and everything
retained comes from the sorted group. -/
theorem C8_cap_keeps_first_ten (l : List NormRow) (h : MAX_PER_GROUP < l.length) :
    processGroup l = (jsSort l).take MAX_PER_GROUP
    ∧ (processGroup l).length = MAX_PER_GROUP
    ∧ ∀ x ∈ processGroup l, x ∈ jsSort l := by
  have h1 : processGroup l = (jsSort l).take MAX_PER_GROUP := by
    simp [processGroup, jsSlice]
  have hlen : (jsSort l).length = l.length := List.length_insertionSort rowLe l
  refine ⟨h1, ?_, ?_⟩
  · rw [h1, List.length_take, hlen]
    exact Nat.min_eq_left h.le
  · intro x hx
    rw [h1] at hx
    exact List.mem_of_mem_take hx

/-- Witness for C8: an eleven-row group is capped to its first ten sorted
rows. -/
theorem C8_witness :
    MAX_PER_GROUP < elevenRows.length
    ∧ (processGroup elevenRows = (jsSort elevenRows).take MAX_PER_GROUP
       ∧ (processGroup elevenRows).length = MAX_PER_GROUP
       ∧ ∀ x ∈ processGroup elevenRows, x ∈ jsSort elevenRows) :=
  ⟨by decide, C8_cap_keeps_first_ten elevenRows (by decide)⟩

/-! ### Claim C9 -/

/-- Claim C9: a record whose name is empty or whitespace-only appears in no
output status group — every row of every group output has a name that does not
trim to the empty string — while records with a non-blank name are processed
and land in the group of their status (the run continues past the dropped
rows). -/
theorem C9_blank_names_dropped :
    (∀ (now : Now) (rows : List InputRow) (st : Status) (x : NormRow),
        x ∈ pipelineGroup now rows st → ¬(jsTrim x.IPO = ""))
    ∧ ∀ (now : Now) (rows : List InputRow) (r : InputRow),
        r ∈ rows → ¬(jsTrim r.IPO = "") →
        normalizeRow now r ∈ groupOf (rows.map (normalizeRow now)) (rowStatus now r) := by
  constructor
  · intro now rows st x hx
    have hx1 : x ∈ jsSort (groupOf (rows.map (normalizeRow now)) st) := by
      have : pipelineGroup now rows st
          = (jsSort (groupOf (rows.map (normalizeRow now)) st)).take MAX_PER_GROUP := by
        simp [pipelineGroup, processGroup, jsSlice]
      rw [this] at hx
      exact List.mem_of_mem_take hx
    have hx2 : x ∈ groupOf (rows.map (normalizeRow now)) st :=
      (List.mem_insertionSort rowLe).mp hx1
    have hp := List.of_mem_filter hx2
    have : (!(jsTrim x.IPO == "")) = true := (Bool.and_eq_true _ _).mp hp |>.1
    intro hcon
    rw [hcon] at this
    simp at this
  · intro now rows r hr hname
    refine List.mem_filter.mpr ⟨List.mem_map_of_mem _ hr, ?_⟩
    have h1 : (!(jsTrim (normalizeRow now r).IPO == "")) = true := by
      simp only [normalizeRow]
      simpa using hname
    have h2 : ((normalizeRow now r).status == rowStatus now r) = true := by
      simp [normalizeRow]
    rw [h1, h2]
    rfl

/-- Witness for C9: a well-named row survives into its status group while the
theorem guarantees no blank-named row ever can. -/
theorem C9_witness :
    alphaRow ∈ [alphaRow]
    ∧ ¬(jsTrim alphaRow.IPO = "")
    ∧ normalizeRow ⟨2025, 10, 16, 0⟩ alphaRow
        ∈ groupOf ([alphaRow].map (normalizeRow ⟨2025, 10, 16, 0⟩))
            (rowStatus ⟨2025, 10, 16, 0⟩ alphaRow) :=
  ⟨by decide, by decide,
    C9_blank_names_dropped.2 ⟨2025, 10, 16, 0⟩ [alphaRow] alphaRow (by decide) (by decide)⟩

end LiveGmp
